import Mathlib

/-!
# CodeUI — verification of the spec against the source

Shallow embedding of the core components of the CodeUI repository
(`src/lib/prompts/frontend-design.ts`, `src/hooks/use-style-history.ts`,
`src/app/api/ai/route.ts`): the SEARCH/REPLACE patch engine, HTML
extraction, style validators, the SSE stream decoder, the generation
session, and the style-history stack.

JavaScript strings are modelled as Lean `String`s (lists of characters);
all string operations used by the source (`trim`, `includes`,
`startsWith`, `split`, `replace`, regex scans) are defined here with the
semantics of their JavaScript counterparts on the inputs that occur.
-/

set_option maxRecDepth 4000

/-! ## JavaScript string primitives -/

/-- JS whitespace (the `\s` class / `String.prototype.trim`): tab, LF, VT,
FF, CR, space, NBSP, line/paragraph separator, BOM. -/
def jsIsSpace (c : Char) : Bool :=
  c.toNat = 9 || c.toNat = 10 || c.toNat = 11 || c.toNat = 12 || c.toNat = 13 ||
  c.toNat = 32 || c.toNat = 160 || c.toNat = 8232 || c.toNat = 8233 || c.toNat = 65279

/-- Trim JS whitespace from both ends of a character list. -/
def trimChars (l : List Char) : List Char :=
  ((l.dropWhile jsIsSpace).reverse.dropWhile jsIsSpace).reverse

/-- JS `String.prototype.trim`. -/
def jsTrim (s : String) : String := ⟨trimChars s.data⟩

/-- Index of the first occurrence of `pat` in `l` (JS `indexOf`). -/
def findSubIdx (pat : List Char) : List Char → Option Nat
  | [] => if pat.isEmpty then some 0 else none
  | l@(_ :: t) =>
    if pat.isPrefixOf l then some 0 else (findSubIdx pat t).map (· + 1)

/-- Does `pat` occur in `l` as a contiguous sublist? -/
def containsSub (l pat : List Char) : Bool := (findSubIdx pat l).isSome

/-- JS `String.prototype.includes`. -/
def jsIncludes (s sub : String) : Bool := containsSub s.data sub.data

/-- JS `String.prototype.startsWith`. -/
def jsStartsWith (s p : String) : Bool := p.data.isPrefixOf s.data

/-- ASCII lower-casing of one character (enough for the `i` regex flag on
the ASCII patterns used by the source). -/
def asciiLower (c : Char) : Char :=
  if 65 ≤ c.toNat ∧ c.toNat ≤ 90 then Char.ofNat (c.toNat + 32) else c

/-- Case-insensitive character comparison (ASCII). -/
def charEqCI (a b : Char) : Bool := asciiLower a == asciiLower b

/-- Case-insensitive list-prefix test. -/
def ciPrefix : List Char → List Char → Bool
  | [], _ => true
  | _ :: _, [] => false
  | a :: as, b :: bs => charEqCI a b && ciPrefix as bs

/-- Index of the first case-insensitive occurrence of `pat` in `l`. -/
def findSubIdxCI (pat : List Char) : List Char → Option Nat
  | [] => if pat.isEmpty then some 0 else none
  | l@(_ :: t) =>
    if ciPrefix pat l then some 0 else (findSubIdxCI pat t).map (· + 1)

/-- Split on a (non-empty) separator substring, fuelled by the input
length (JS `String.prototype.split` with a string separator). -/
def splitChars (sep : List Char) : Nat → List Char → List (List Char)
  | 0, l => [l]
  | fuel + 1, l =>
    match findSubIdx sep l with
    | none => [l]
    | some i => l.take i :: splitChars sep fuel (l.drop (i + sep.length))

/-- JS `String.prototype.split` with a non-empty string separator. -/
def jsSplit (s sep : String) : List String :=
  (splitChars sep.data (s.data.length + 1) s.data).map (fun l => (⟨l⟩ : String))

/-- The `GetSubstitution` step of JS `String.prototype.replace` with a
string pattern (no capture groups): `$$` is a dollar, `$&` the matched
text, a dollar followed by a backtick the text before the match, `$` then
an apostrophe the text after it; any other `$`-sequence stays literal. -/
def getSubstitution (matched before after : List Char) : List Char → List Char
  | [] => []
  | [c] => [c]
  | c :: d :: rest2 =>
    if c = '$' then
      if d = '$' then '$' :: getSubstitution matched before after rest2
      else if d = '&' then matched ++ getSubstitution matched before after rest2
      else if d.toNat = 96 then before ++ getSubstitution matched before after rest2
      else if d.toNat = 39 then after ++ getSubstitution matched before after rest2
      else c :: getSubstitution matched before after (d :: rest2)
    else c :: getSubstitution matched before after (d :: rest2)

/-- First-occurrence replacement on character lists, with the JS
`$`-substitution applied to the replacement text. -/
def replaceCharsFirst (l pat repl : List Char) : List Char :=
  match findSubIdx pat l with
  | none => l
  | some i =>
    l.take i ++ getSubstitution pat (l.take i) (l.drop (i + pat.length)) repl ++
      l.drop (i + pat.length)

/-- JS `String.prototype.replace` with a string pattern and a string
replacement. -/
def jsReplace (s pat repl : String) : String :=
  ⟨replaceCharsFirst s.data pat.data repl.data⟩

/-- Literal first-occurrence replacement: what the spec's round-trip
sentence describes (the replacement text inserted byte-for-byte). -/
def replaceFirstOccurrence (doc search repl : String) : String :=
  match findSubIdx search.data doc.data with
  | none => doc
  | some i => ⟨doc.data.take i ++ repl.data ++ doc.data.drop (i + search.data.length)⟩

/-! ## Patch Engine (`frontend-design.ts`: `applySearchReplace`, `extractHtml`) -/

/-- The literal pieces of the patch regex
`<<<<<<< SEARCH\n([\s\S]*?)\n=======\n([\s\S]*?)\n>>>>>>> REPLACE`. -/
def searchMarker : List Char := "<<<<<<< SEARCH\n".data

def sepMarker : List Char := "\n=======\n".data

def endMarker : List Char := "\n>>>>>>> REPLACE".data

/-- All `(search, replace)` pairs produced by repeatedly running the patch
regex over the AI response (`patchRegex.exec` loop), both sides trimmed.
The lazy groups make each block end at the earliest following separator
and end marker; the scan resumes after the end marker. Fuelled by the
input length (each step consumes at least the end marker). -/
def extractPatchPairs : Nat → List Char → List (String × String)
  | 0, _ => []
  | fuel + 1, l =>
    match findSubIdx searchMarker l with
    | none => []
    | some i =>
      let afterM := l.drop (i + searchMarker.length)
      match findSubIdx sepMarker afterM with
      | none => []
      | some j =>
        let afterS := afterM.drop (j + sepMarker.length)
        match findSubIdx endMarker afterS with
        | none => []
        | some k =>
          ((⟨trimChars (afterM.take j)⟩ : String), (⟨trimChars (afterS.take k)⟩ : String)) ::
            extractPatchPairs fuel (afterS.drop (k + endMarker.length))

/-- The SEARCH/REPLACE pairs extracted from a raw AI response. -/
def extractPatches (aiResponse : String) : List (String × String) :=
  extractPatchPairs (aiResponse.data.length + 1) aiResponse.data

/-- Match the opening of a fenced block (regex ```` ```html? ````, flag
`i`): three backticks, `htm` case-insensitively, then a greedy optional
`l`. Returns the remainder after the opening. -/
def matchFencedOpen : List Char → Option (List Char)
  | a :: b :: c :: h :: t :: m :: rest =>
    if a.toNat = 96 ∧ b.toNat = 96 ∧ c.toNat = 96 ∧
        charEqCI h 'h' ∧ charEqCI t 't' ∧ charEqCI m 'm' then
      match rest with
      | x :: rest2 => if charEqCI x 'l' then some rest2 else some rest
      | [] => some []
    else none
  | _ => none

/-- Remainder after the first fenced-block opening, if any. -/
def findFencedOpen : List Char → Option (List Char)
  | [] => none
  | l@(_ :: t) =>
    match matchFencedOpen l with
    | some r => some r
    | none => findFencedOpen t

/-- Three backticks (the closing fence). -/
def fenceChars : List Char := [Char.ofNat 96, Char.ofNat 96, Char.ofNat 96]

/-- The capture groups of `content.matchAll(/```html?\s*([\s\S]*?)```/gi)`:
after each opening, greedy `\s*` skips whitespace and the lazy group runs
to the first closing fence; scanning resumes after it. If no closing
fence follows an opening there is no further match at all. -/
def fencedMatches : Nat → List Char → List (List Char)
  | 0, _ => []
  | fuel + 1, l =>
    match findFencedOpen l with
    | none => []
    | some afterOpen =>
      let body := afterOpen.dropWhile jsIsSpace
      match findSubIdx fenceChars body with
      | none => []
      | some k => body.take k :: fencedMatches fuel (body.drop (k + 3))

/-- First match of `/<!DOCTYPE[\s\S]*?<\/html>/i`: from the first
case-insensitive `<!DOCTYPE` to the earliest `</html>` after it. -/
def doctypeSegment (l : List Char) : Option (List Char) :=
  match findSubIdxCI "<!DOCTYPE".data l with
  | none => none
  | some i =>
    match findSubIdxCI "</html>".data (l.drop (i + 9)) with
    | none => none
    | some j => some ((l.drop i).take (9 + j + 7))

/-- First match of `/<html[\s\S]*?<\/html>/i`. -/
def htmlSegment (l : List Char) : Option (List Char) :=
  match findSubIdxCI "<html".data l with
  | none => none
  | some i =>
    match findSubIdxCI "</html>".data (l.drop (i + 5)) with
    | none => none
    | some j => some ((l.drop i).take (5 + j + 7))

/-- `extractHtml` (`frontend-design.ts` lines 829-856): content that is
already a document (trimmed text starting with `<!DOCTYPE` or `<html`)
is returned trimmed; else every fenced `html` block is taken (joined with
newlines); else the `<!DOCTYPE ... </html>` regex match; else the
`<html ... </html>` match; else the trimmed content. -/
def extractHtml (content : String) : String :=
  let t := jsTrim content
  if jsStartsWith t "<!DOCTYPE" || jsStartsWith t "<html" then t
  else
    let fences := fencedMatches (content.data.length + 1) content.data
    if fences.isEmpty then
      match doctypeSegment content.data with
      | some seg => (⟨trimChars seg⟩ : String)
      | none =>
        match htmlSegment content.data with
        | some seg => (⟨trimChars seg⟩ : String)
        | none => t
    else (⟨trimChars (List.intercalate ['\n'] fences)⟩ : String)

/-- Modelled from the spec's words for claim C3 (the ordered fallback as
the spec states it): "prefer fenced code-block content labeled `html`;
else a regex match spanning from a doctype declaration to the closing
`</html>` tag; else a match spanning `<html>` to `</html>`; else return
the trimmed raw text unchanged". -/
def specExtractHtml (content : String) : String :=
  let fences := fencedMatches (content.data.length + 1) content.data
  if fences.isEmpty then
    match doctypeSegment content.data with
    | some seg => (⟨trimChars seg⟩ : String)
    | none =>
      match htmlSegment content.data with
      | some seg => (⟨trimChars seg⟩ : String)
      | none => jsTrim content
  else (⟨trimChars (List.intercalate ['\n'] fences)⟩ : String)

/-- The amended ordered fallback for claim C3: before anything else, raw
content whose trimmed text already starts with `<!DOCTYPE` or `<html` is
returned trimmed; only otherwise does the spec's fallback chain run. -/
def specExtractHtmlAmended (content : String) : String :=
  let t := jsTrim content
  if jsStartsWith t "<!DOCTYPE" || jsStartsWith t "<html" then t
  else specExtractHtml content

/-- `applySearchReplace` (`frontend-design.ts` lines 859-883): apply each
extracted pair in order (first occurrence only, skipped when the search
text is absent); if the document ends up unchanged, fall back to
`extractHtml` when that yields a full document. -/
def applySearchReplace (originalHtml aiResponse : String) : String :=
  let pairs := extractPatches aiResponse
  let result := pairs.foldl
    (fun acc p => if jsIncludes acc p.1 then jsReplace acc p.1 p.2 else acc)
    originalHtml
  if result == originalHtml then
    let extracted := extractHtml aiResponse
    if jsStartsWith extracted "<!DOCTYPE" || jsStartsWith extracted "<html" then extracted
    else result
  else result

/-- A one-block SEARCH/REPLACE response in the wire format of the spec. -/
def mkPatchBlock (search repl : String) : String :=
  "<<<<<<< SEARCH\n" ++ search ++ "\n=======\n" ++ repl ++ "\n>>>>>>> REPLACE"

/-! ## Style Validators (`frontend-design.ts` lines 97-676)

JS numbers are modelled as `Option ℚ` (`none` is `NaN`); the number
values reaching these validators are finite decimals, printed by
`numToString` exactly as JS prints them. In the handful of error
messages that quote example values, the original quotation marks are
omitted. -/

/-- A JS number: `none` models `NaN`. -/
abbrev JSNum := Option ℚ

/-- JS `n < 0` (false on `NaN`). -/
def jsNumNeg (n : JSNum) : Bool :=
  match n with
  | none => false
  | some q => decide (q < 0)

/-- JS `n >= 0` (false on `NaN`). -/
def jsNumNonneg (n : JSNum) : Bool :=
  match n with
  | none => false
  | some q => decide (0 ≤ q)

/-- JS `n === 1` (false on `NaN`). -/
def jsNumEqOne (n : JSNum) : Bool :=
  match n with
  | none => false
  | some q => decide (q = 1)

/-- `Math.min(1, Math.max(0, n))` (`NaN` propagates). -/
def clamp01 (n : JSNum) : JSNum := n.map (fun q => min 1 (max 0 q))

/-- `Math.min(100, Math.max(0, n))` (`NaN` propagates). -/
def clamp0100 (n : JSNum) : JSNum := n.map (fun q => min 100 (max 0 q))

def isDigitChar (c : Char) : Bool := 48 ≤ c.toNat && c.toNat ≤ 57

def isDigitDot (c : Char) : Bool := isDigitChar c || c = '.'

def natOfDigits (l : List Char) : Nat :=
  l.foldl (fun a c => a * 10 + (c.toNat - 48)) 0

/-- JS `parseFloat` restricted to the shape `[\d.]+` with an optional
leading minus sign (the only shape the regexes below feed it): integer
digits, then an optional fraction up to a second dot; `NaN` when there
are no digits at all before that point. -/
def mkLenNum (neg : Bool) (digits : List Char) : JSNum :=
  let intPart := digits.takeWhile isDigitChar
  let rest := digits.dropWhile isDigitChar
  let fracPart := (rest.drop 1).takeWhile isDigitChar
  if intPart.isEmpty ∧ fracPart.isEmpty then none
  else
    let mag : ℚ :=
      if fracPart.isEmpty then (natOfDigits intPart : ℚ)
      else (natOfDigits intPart : ℚ) +
        (natOfDigits fracPart : ℚ) / ((10 : ℚ) ^ fracPart.length)
    some (if neg then -mag else mag)

/-- Exact decimal rendering of a rational, matching JS number-to-string
for the finite decimals produced in this file (`1.5 ↦ "1.5"`,
`-0 ↦ "0"`, integers without a point). -/
def ratDecimalString (q : ℚ) : String :=
  match (List.range 40).find? (fun k => decide ((q * (10 : ℚ) ^ k).den = 1)) with
  | none => toString q.num ++ "/" ++ toString q.den
  | some k =>
    let n := (q * (10 : ℚ) ^ k).num
    if k = 0 then toString n
    else
      let ds := toString n.natAbs
      let ds := if ds.length ≤ k then
          (⟨List.replicate (k + 1 - ds.length) '0'⟩ : String) ++ ds else ds
      (if n < 0 then "-" else "") ++ (⟨ds.data.take (ds.data.length - k)⟩ : String) ++
        "." ++ (⟨ds.data.drop (ds.data.length - k)⟩ : String)

/-- JS template-literal rendering of a number. -/
def numToString (n : JSNum) : String :=
  match n with
  | none => "NaN"
  | some q => ratDecimalString q

/-- The result of `parseCSSLength`. -/
structure CSSLength where
  value : JSNum
  unit : String
  deriving DecidableEq, Repr

/-- ASCII `String.prototype.toLowerCase`. -/
def lowerStr (s : String) : String := ⟨s.data.map asciiLower⟩

/-- The unit alternation of the `parseCSSLength` regex. -/
def cssUnits : List String :=
  ["px", "em", "rem", "%", "vh", "vw", "vmin", "vmax", "ch", "ex", "cm", "mm", "in", "pt", "pc"]

/-- The optional unit group: empty input means the unit was absent
(`match[2] || "px"`); otherwise the remainder must spell a unit
case-insensitively and is kept as written. -/
def unitPart (rest : List Char) : Option String :=
  match rest with
  | [] => some "px"
  | _ => if cssUnits.contains (⟨rest.map asciiLower⟩ : String) then some (⟨rest⟩ : String) else none

/-- The number-then-unit body of the length regex after the optional
sign: a non-empty `[\d.]+` run, then the optional unit, then the end. -/
def parseLenBody (neg : Bool) (l : List Char) : Option CSSLength :=
  let digits := l.takeWhile isDigitDot
  let rest := l.dropWhile isDigitDot
  if digits.isEmpty then none
  else
    match unitPart rest with
    | none => none
    | some u => some ⟨mkLenNum neg digits, u⟩

/-- `^(-?[\d.]+)(px|em|rem|%|vh|vw|vmin|vmax|ch|ex|cm|mm|in|pt|pc)?$/i`
on a character list. -/
def parseLenChars : List Char → Option CSSLength
  | [] => none
  | c :: cs => if c = '-' then parseLenBody true cs else parseLenBody false (c :: cs)

/-- `parseCSSLength` (`frontend-design.ts` lines 113-120). -/
def parseCSSLength (value : String) : Option CSSLength := parseLenChars value.data

def isHexDigit (c : Char) : Bool :=
  isDigitChar c || (65 ≤ c.toNat && c.toNat ≤ 70) || (97 ≤ c.toNat && c.toNat ≤ 102)

/-- `/^#[0-9A-Fa-f]{3}$/`. -/
def isHex3 (l : List Char) : Bool :=
  match l with
  | ['#', a, b, c] => isHexDigit a && isHexDigit b && isHexDigit c
  | _ => false

/-- The 3-digit hex expansion `#${r}${r}${g}${g}${b}${b}` — note the
source keeps each digit in its original case here. -/
def hex3Expand (l : List Char) : List Char :=
  match l with
  | ['#', a, b, c] => ['#', a, a, b, b, c, c]
  | _ => l

/-- `/^#[0-9A-Fa-f]{6}$/`. -/
def isHex6 (l : List Char) : Bool :=
  match l with
  | '#' :: rest => rest.length = 6 && rest.all isHexDigit
  | _ => false

/-- `/^#[0-9A-Fa-f]{8}$/`. -/
def isHex8 (l : List Char) : Bool :=
  match l with
  | '#' :: rest => rest.length = 8 && rest.all isHexDigit
  | _ => false

/-- Case-insensitive literal prefix, returning the remainder. -/
def stripCILit (p : String) (l : List Char) : Option (List Char) :=
  if ciPrefix p.data l then some (l.drop p.data.length) else none

/-- One required character. -/
def expectChar (c : Char) : List Char → Option (List Char)
  | [] => none
  | x :: r => if x = c then some r else none

/-- A non-empty `\d+` group (JS `parseInt` of it). -/
def takeNatDigits (l : List Char) : Option (Nat × List Char) :=
  let d := l.takeWhile isDigitChar
  if d.isEmpty then none else some (natOfDigits d, l.dropWhile isDigitChar)

/-- A non-empty `[\d.]+` group (JS `parseFloat` of it). -/
def takeFloatDigits (l : List Char) : Option (JSNum × List Char) :=
  let d := l.takeWhile isDigitDot
  if d.isEmpty then none else some (mkLenNum false d, l.dropWhile isDigitDot)

/-- `\s*` (greedy). -/
def skipJsSpaces (l : List Char) : List Char := l.dropWhile jsIsSpace

/-- `^rgba?\((\d+),\s*(\d+),\s*(\d+)(?:,\s*([\d.]+))?\)$/i`: the three
channels and the optional alpha group. -/
def rgbMatch (l : List Char) : Option (Nat × Nat × Nat × Option JSNum) := do
  let l ← stripCILit "rgb" l
  let l := match l with
    | x :: r => if charEqCI x 'a' then r else x :: r
    | [] => []
  let l ← expectChar '(' l
  let (r1, l) ← takeNatDigits l
  let l ← expectChar ',' l
  let (g1, l) ← takeNatDigits (skipJsSpaces l)
  let l ← expectChar ',' l
  let (b1, l) ← takeNatDigits (skipJsSpaces l)
  match l with
  | ',' :: l2 => do
    let (a1, l3) ← takeFloatDigits (skipJsSpaces l2)
    let l4 ← expectChar ')' l3
    if l4.isEmpty then some (r1, g1, b1, some a1) else none
  | _ => do
    let l2 ← expectChar ')' l
    if l2.isEmpty then some (r1, g1, b1, none) else none

/-- `^hsla?\((\d+),\s*([\d.]+)%,\s*([\d.]+)%(?:,\s*([\d.]+))?\)$/i`. -/
def hslMatch (l : List Char) : Option (Nat × JSNum × JSNum × Option JSNum) := do
  let l ← stripCILit "hsl" l
  let l := match l with
    | x :: r => if charEqCI x 'a' then r else x :: r
    | [] => []
  let l ← expectChar '(' l
  let (h1, l) ← takeNatDigits l
  let l ← expectChar ',' l
  let (s1, l) ← takeFloatDigits (skipJsSpaces l)
  let l ← expectChar '%' l
  let l ← expectChar ',' l
  let (l1, l) ← takeFloatDigits (skipJsSpaces l)
  let l ← expectChar '%' l
  match l with
  | ',' :: l2 => do
    let (a1, l3) ← takeFloatDigits (skipJsSpaces l2)
    let l4 ← expectChar ')' l3
    if l4.isEmpty then some (h1, s1, l1, some a1) else none
  | _ => do
    let l2 ← expectChar ')' l
    if l2.isEmpty then some (h1, s1, l1, none) else none

/-- The result of `parseColor`. -/
structure ColorParse where
  isValid : Bool
  normalized : String
  deriving DecidableEq, Repr

/-- The named-color allow-list of `parseColor`. -/
def namedColors : List String :=
  ["transparent", "inherit", "initial", "currentColor",
   "black", "white", "red", "green", "blue", "yellow", "cyan", "magenta",
   "gray", "grey", "orange", "pink", "purple", "brown", "navy", "teal",
   "olive", "maroon", "aqua", "fuchsia", "lime", "silver"]

/-- `parseColor` (`frontend-design.ts` lines 125-179). -/
def parseColor (value : String) : ColorParse :=
  let l := value.data
  if isHex3 l then { isValid := true, normalized := ⟨hex3Expand l⟩ }
  else if isHex6 l then { isValid := true, normalized := lowerStr value }
  else if isHex8 l then { isValid := true, normalized := lowerStr value }
  else
    match rgbMatch l with
    | some (r1, g1, b1, aRaw) =>
      let r := min 255 r1
      let g := min 255 g1
      let b := min 255 b1
      let a : JSNum := match aRaw with
        | some raw => clamp01 raw
        | none => some 1
      if jsNumEqOne a then
        { isValid := true, normalized := "rgb(" ++ toString r ++ ", " ++ toString g ++ ", " ++ toString b ++ ")" }
      else
        { isValid := true, normalized := "rgba(" ++ toString r ++ ", " ++ toString g ++ ", " ++ toString b ++ ", " ++ numToString a ++ ")" }
    | none =>
      match hslMatch l with
      | some (h1, s1, l1, aRaw) =>
        let h := h1 % 360
        let s := clamp0100 s1
        let lt := clamp0100 l1
        let a : JSNum := match aRaw with
          | some raw => clamp01 raw
          | none => some 1
        if jsNumEqOne a then
          { isValid := true, normalized := "hsl(" ++ toString h ++ ", " ++ numToString s ++ "%, " ++ numToString lt ++ "%)" }
        else
          { isValid := true, normalized := "hsla(" ++ toString h ++ ", " ++ numToString s ++ "%, " ++ numToString lt ++ "%, " ++ numToString a ++ ")" }
      | none =>
        if namedColors.contains (lowerStr value) then
          { isValid := true, normalized := lowerStr value }
        else { isValid := false, normalized := value }

/-- A `string | number` style value. -/
inductive JSVal where
  | str (s : String)
  | num (n : JSNum)
  deriving DecidableEq, Repr

/-- `ValidationResult` (`frontend-design.ts` lines 97-102). -/
structure ValidationResult where
  isValid : Bool
  sanitizedValue : JSVal
  error : Option String := none
  warning : Option String := none
  deriving DecidableEq, Repr

/-- `validateDimension` (`frontend-design.ts` lines 188-230). -/
def validateDimension (value : JSVal) : ValidationResult :=
  match value with
  | .num n => { isValid := true, sanitizedValue := .str (numToString n ++ "px") }
  | .str s =>
    let trimmed := jsTrim s
    if ["auto", "inherit", "initial", "unset", "fit-content", "max-content",
        "min-content", "none"].contains trimmed then
      { isValid := true, sanitizedValue := .str trimmed }
    else if jsStartsWith trimmed "calc(" then
      if trimmed.data.countP (· = '(') = trimmed.data.countP (· = ')') then
        { isValid := true, sanitizedValue := .str trimmed }
      else
        { isValid := false, sanitizedValue := .str s,
          error := some "Unbalanced parentheses in calc()" }
    else
      match parseCSSLength trimmed with
      | some p =>
        if jsNumNeg p.value then
          { isValid := true, sanitizedValue := .str (numToString p.value ++ p.unit),
            warning := some "Negative dimension values may cause unexpected layout" }
        else { isValid := true, sanitizedValue := .str (numToString p.value ++ p.unit) }
      | none =>
        { isValid := false, sanitizedValue := .str s,
          error := some "Invalid dimension format. Use values like 100px, 50%, or auto" }

/-- `trimmed.split(/\s+/)` for the shorthand branches. -/
def splitOnWsRuns : Nat → List Char → List (List Char)
  | 0, l => [l]
  | fuel + 1, l =>
    let seg := l.takeWhile (fun c => !jsIsSpace c)
    let rest := l.dropWhile (fun c => !jsIsSpace c)
    if rest.isEmpty then [seg]
    else seg :: splitOnWsRuns fuel (rest.dropWhile jsIsSpace)

/-- `validateSpacing` (`frontend-design.ts` lines 235-272). -/
def validateSpacing (value : JSVal) : ValidationResult :=
  match value with
  | .num n => { isValid := true, sanitizedValue := .str (numToString n ++ "px") }
  | .str s =>
    let trimmed := jsTrim s
    if ["auto", "inherit", "initial", "unset"].contains trimmed then
      { isValid := true, sanitizedValue := .str trimmed }
    else
      match parseCSSLength trimmed with
      | some p => { isValid := true, sanitizedValue := .str (numToString p.value ++ p.unit) }
      | none =>
        let parts := splitOnWsRuns (trimmed.data.length + 1) trimmed.data
        let validParts := parts.map (fun part =>
          if part = "auto".data then some "auto"
          else match parseLenChars part with
            | some p => some (numToString p.value ++ p.unit)
            | none => none)
        if 1 ≤ parts.length ∧ parts.length ≤ 4 ∧ validParts.all Option.isSome then
          { isValid := true,
            sanitizedValue := .str (String.intercalate " " (validParts.map (fun o => o.getD ""))) }
        else
          { isValid := false, sanitizedValue := .str s,
            error := some "Invalid spacing format. Use values like 10px, 1rem, or auto" }

/-- `validateColor` (`frontend-design.ts` lines 277-298). -/
def validateColor (value : JSVal) : ValidationResult :=
  match value with
  | .num n =>
    { isValid := false, sanitizedValue := .num n,
      error := some "Color values must be strings" }
  | .str s =>
    let trimmed := jsTrim s
    let pc := parseColor trimmed
    if pc.isValid then { isValid := true, sanitizedValue := .str pc.normalized }
    else
      { isValid := false, sanitizedValue := .str s,
        error := some "Invalid color format. Use hex (#fff), rgb(), or named colors" }

/-- `validateBorderRadius` (`frontend-design.ts` lines 423-475). -/
def validateBorderRadius (value : JSVal) : ValidationResult :=
  match value with
  | .num n =>
    if jsNumNeg n then
      { isValid := false, sanitizedValue := .num n,
        error := some "Border radius cannot be negative" }
    else { isValid := true, sanitizedValue := .str (numToString n ++ "px") }
  | .str s =>
    let trimmed := jsTrim s
    if ["inherit", "initial", "unset"].contains trimmed then
      { isValid := true, sanitizedValue := .str trimmed }
    else
      match parseCSSLength trimmed with
      | some p =>
        if jsNumNeg p.value then
          { isValid := false, sanitizedValue := .str s,
            error := some "Border radius cannot be negative" }
        else { isValid := true, sanitizedValue := .str (numToString p.value ++ p.unit) }
      | none =>
        let parts := splitOnWsRuns (trimmed.data.length + 1) trimmed.data
        let validParts := parts.map (fun part =>
          match parseLenChars part with
          | some p => if jsNumNonneg p.value then some (numToString p.value ++ p.unit) else none
          | none => none)
        if 1 ≤ parts.length ∧ parts.length ≤ 4 ∧ validParts.all Option.isSome then
          { isValid := true,
            sanitizedValue := .str (String.intercalate " " (validParts.map (fun o => o.getD ""))) }
        else
          { isValid := false, sanitizedValue := .str s,
            error := some "Invalid border radius. Use values like 8px, 50%, or 4px 8px" }

/-- `validateBorderWidth` (`frontend-design.ts` lines 480-516). -/
def validateBorderWidth (value : JSVal) : ValidationResult :=
  match value with
  | .num n =>
    if jsNumNeg n then
      { isValid := false, sanitizedValue := .num n,
        error := some "Border width cannot be negative" }
    else { isValid := true, sanitizedValue := .str (numToString n ++ "px") }
  | .str s =>
    let trimmed := jsTrim s
    if ["thin", "medium", "thick", "inherit", "initial", "unset"].contains trimmed then
      { isValid := true, sanitizedValue := .str trimmed }
    else
      match parseCSSLength trimmed with
      | some p =>
        if jsNumNeg p.value then
          { isValid := false, sanitizedValue := .str s,
            error := some "Border width cannot be negative" }
        else { isValid := true, sanitizedValue := .str (numToString p.value ++ p.unit) }
      | none =>
        { isValid := false, sanitizedValue := .str s,
          error := some "Invalid border width. Use values like 1px, 2px, or thin" }

/-! ## Style History (`use-style-history.ts` lines 9-222)

The hook state (`useState` history triple plus the `pendingChangesRef`
batching buffer) is modelled as one record, and each action as a pure
state transition; `undo`/`redo` also return the batch handed back to the
caller. Debounce timers only decide *when* `flushBatch` runs, so the
commit itself is the modelled transition. -/

/-- `StyleChange` (`use-style-history.ts` lines 9-16). -/
structure StyleChange where
  id : String
  selector : String
  property : String
  oldValue : JSVal
  newValue : JSVal
  timestamp : Nat
  deriving DecidableEq, Repr

/-- A committed batch. -/
abbrev ChangeBatch := List StyleChange

/-- The hook state: the `StyleHistoryState` triple plus
`pendingChangesRef.current`. -/
structure HistState where
  past : List ChangeBatch
  present : Option ChangeBatch
  future : List ChangeBatch
  pending : List StyleChange
  deriving DecidableEq, Repr

/-- The initial hook state. -/
def initHistState : HistState := ⟨[], none, [], []⟩

/-- JS `arr.slice(-maxSize)`: the last `maxSize` elements — except that
`slice(-0)` is `slice(0)`, the whole array. -/
def sliceLast (maxSize : Nat) (l : List α) : List α :=
  if maxSize = 0 then l else l.drop (l.length - maxSize)

/-- The shared commit step of `flushBatch` and `batchChanges`:
`past := present ? [...past, present].slice(-maxSize) : past`, the new
batch becomes `present`, and `future` is cleared. -/
def commitBatch (maxSize : Nat) (batch : ChangeBatch) (st : HistState) : HistState :=
  { past := match st.present with
      | some p => sliceLast maxSize (st.past ++ [p])
      | none => st.past
    present := some batch
    future := []
    pending := [] }

/-- `flushBatch` (`use-style-history.ts` lines 60-77): a no-op on an
empty pending list, otherwise the pending list is committed. -/
def flushBatch (maxSize : Nat) (st : HistState) : HistState :=
  if st.pending.isEmpty then st else commitBatch maxSize st.pending st

/-- `pushChange`'s update of the pending list (`use-style-history.ts`
lines 80-104): when the most recent pending entry has the same
`(selector, property)` its `newValue`/`timestamp` are overwritten in
place, otherwise the change is appended. (Written as recursion to the
last element.) -/
def pushPending (change : StyleChange) : List StyleChange → List StyleChange
  | [] => [change]
  | [lastP] =>
    if lastP.selector == change.selector && lastP.property == change.property then
      [{ lastP with newValue := change.newValue, timestamp := change.timestamp }]
    else [lastP, change]
  | x :: y :: rest => x :: pushPending change (y :: rest)

/-- `pushChange` as a state transition (the debounce timer reset only
schedules `flushBatch`, which is modelled separately). -/
def pushChange (change : StyleChange) (st : HistState) : HistState :=
  { st with pending := pushPending change st.pending }

/-- `batchChanges` (`use-style-history.ts` lines 107-127): clears the
pending list and commits the given list immediately. -/
def batchChanges (maxSize : Nat) (changes : ChangeBatch) (st : HistState) : HistState :=
  commitBatch maxSize changes { st with pending := [] }

/-- `undo` (`use-style-history.ts` lines 130-159): force-flush pending
changes, then if `past` is empty return `null` with the state unchanged;
otherwise pop the tail of `past` into `present`, push the old `present`
onto `future` (capped with `slice(0, maxSize)`), and return the old
`present`. -/
def undo (maxSize : Nat) (st : HistState) : Option ChangeBatch × HistState :=
  let st1 := if st.pending.isEmpty then st else flushBatch maxSize st
  if st1.past.isEmpty then (none, st1)
  else
    (st1.present,
     { past := st1.past.dropLast
       present := some (st1.past.getLastD [])
       future := match st1.present with
         | some p => (p :: st1.future).take maxSize
         | none => st1.future
       pending := st1.pending })

/-- `redo` (`use-style-history.ts` lines 162-181). -/
def redo (maxSize : Nat) (st : HistState) : Option ChangeBatch × HistState :=
  match st.future with
  | [] => (none, st)
  | nextState :: restFuture =>
    (some nextState,
     { past := match st.present with
         | some p => sliceLast maxSize (st.past ++ [p])
         | none => st.past
       present := some nextState
       future := restFuture
       pending := st.pending })

/-- `canUndo` (`use-style-history.ts` line 215):
`past.length > 0 || present !== null`. -/
def canUndo (st : HistState) : Bool := st.past.length > 0 || st.present.isSome

/-- The history-stack bound exactly as the spec states it:
`past.length + (present != null ? 1 : 0) <= maxSize`. -/
def specHistoryBound (maxSize : Nat) (st : HistState) : Bool :=
  st.past.length + (if st.present.isSome then 1 else 0) ≤ maxSize

/-- Two style changes target the same `(selector, property)`. -/
def sameKey (a b : StyleChange) : Bool :=
  a.selector == b.selector && a.property == b.property

/-- No two entries anywhere in the batch share `(selector, property)` —
the invariant exactly as the spec states it. -/
def batchKeysDistinct : List StyleChange → Bool
  | [] => true
  | c :: rest => rest.all (fun d => !sameKey c d) && batchKeysDistinct rest

/-- No two *adjacent* entries share `(selector, property)` — the
invariant the pending list actually maintains. -/
def adjacentKeysDistinct : List StyleChange → Bool
  | [] => true
  | [_] => true
  | a :: b :: rest => !sameKey a b && adjacentKeysDistinct (b :: rest)

/-! ## JSON values and `JSON.parse` (used by the stream decoder) -/

/-- A JSON value (`JSON.parse` output). -/
inductive Json where
  | null
  | bool (b : Bool)
  | num (q : ℚ)
  | str (s : String)
  | arr (elems : List Json)
  | obj (fields : List (String × Json))
  deriving Repr

/-- JSON insignificant whitespace: space, tab, LF, CR. -/
def jsonWsChar (c : Char) : Bool :=
  c.toNat = 32 || c.toNat = 9 || c.toNat = 10 || c.toNat = 13

def hexVal (c : Char) : Option Nat :=
  if isDigitChar c then some (c.toNat - 48)
  else if 65 ≤ c.toNat ∧ c.toNat ≤ 70 then some (c.toNat - 55)
  else if 97 ≤ c.toNat ∧ c.toNat ≤ 102 then some (c.toNat - 87)
  else none

/-- The body of a JSON string after its opening quote: the decoded
characters and the remainder after the closing quote. Control characters
are rejected; escapes are the JSON ones. -/
def jsonStringBody : Nat → List Char → Option (List Char × List Char)
  | 0, _ => none
  | fuel + 1, l =>
    match l with
    | [] => none
    | c :: rest =>
      if c = '"' then some ([], rest)
      else if c = '\\' then
        match rest with
        | [] => none
        | e :: rest2 =>
          let decoded : Option (Char × List Char) :=
            if e = '"' then some ('"', rest2)
            else if e = '\\' then some ('\\', rest2)
            else if e = '/' then some ('/', rest2)
            else if e = 'b' then some (Char.ofNat 8, rest2)
            else if e = 'f' then some (Char.ofNat 12, rest2)
            else if e = 'n' then some ('\n', rest2)
            else if e = 'r' then some ('\r', rest2)
            else if e = 't' then some ('\t', rest2)
            else if e = 'u' then
              match rest2 with
              | h1 :: h2 :: h3 :: h4 :: rest3 =>
                match hexVal h1, hexVal h2, hexVal h3, hexVal h4 with
                | some a, some b, some c4, some d =>
                  some (Char.ofNat (a * 4096 + b * 256 + c4 * 16 + d), rest3)
                | _, _, _, _ => none
              | _ => none
            else none
          match decoded with
          | some (ch, rest3) =>
            (jsonStringBody fuel rest3).map (fun p => (ch :: p.1, p.2))
          | none => none
      else if c.toNat < 32 then none
      else (jsonStringBody fuel rest).map (fun p => (c :: p.1, p.2))

/-- A JSON number: `-?(0|[1-9][0-9]*)(\.[0-9]+)?([eE][+-]?[0-9]+)?`. -/
def jsonNumber (l : List Char) : Option (ℚ × List Char) :=
  let (neg, l1) := match l with
    | '-' :: r => (true, r)
    | _ => (false, l)
  let (intDigits, l2) : List Char × List Char := match l1 with
    | '0' :: r => (['0'], r)
    | _ => (l1.takeWhile isDigitChar, l1.dropWhile isDigitChar)
  if intDigits.isEmpty then none
  else
    let (fracDigits, l3) : List Char × List Char := match l2 with
      | '.' :: r => (r.takeWhile isDigitChar, r.dropWhile isDigitChar)
      | _ => ([], l2)
    if l2.head? = some '.' ∧ fracDigits.isEmpty then none
    else
      let expParsed : Option (Int × List Char) := match l3 with
        | e :: r =>
          if e = 'e' ∨ e = 'E' then
            let (esign, r1) : Bool × List Char := match r with
              | '-' :: r2 => (true, r2)
              | '+' :: r2 => (false, r2)
              | _ => (false, r)
            let eDigits := r1.takeWhile isDigitChar
            if eDigits.isEmpty then none
            else some (if esign then -(natOfDigits eDigits : Int) else (natOfDigits eDigits : Int),
                       r1.dropWhile isDigitChar)
          else some (0, l3)
        | [] => some (0, l3)
      match expParsed with
      | none => none
      | some (ex, l4) =>
        let mag : ℚ := ((natOfDigits intDigits : ℚ) +
          (natOfDigits fracDigits : ℚ) / ((10 : ℚ) ^ fracDigits.length)) * (10 : ℚ) ^ ex
        some (if neg then -mag else mag, l4)

mutual

/-- One JSON value, leading whitespace allowed; returns the remainder. -/
def parseJsonVal : Nat → List Char → Option (Json × List Char)
  | 0, _ => none
  | fuel + 1, l =>
    let l2 := l.dropWhile jsonWsChar
    match l2 with
    | [] => none
    | c :: rest =>
      if c = '{' then
        let rest2 := rest.dropWhile jsonWsChar
        match rest2 with
        | '}' :: r => some (.obj [], r)
        | _ => parseJsonFields fuel rest2 []
      else if c = '[' then
        let rest2 := rest.dropWhile jsonWsChar
        match rest2 with
        | ']' :: r => some (.arr [], r)
        | _ => parseJsonElems fuel rest2 []
      else if c = '"' then
        (jsonStringBody (rest.length + 1) rest).map (fun p => (.str ⟨p.1⟩, p.2))
      else if c = 't' then
        if rest.take 3 = ['r', 'u', 'e'] then some (.bool true, rest.drop 3) else none
      else if c = 'f' then
        if rest.take 4 = ['a', 'l', 's', 'e'] then some (.bool false, rest.drop 4) else none
      else if c = 'n' then
        if rest.take 3 = ['u', 'l', 'l'] then some (.null, rest.drop 3) else none
      else (jsonNumber l2).map (fun p => (.num p.1, p.2))

/-- The fields of an object after its opening brace (at a key). -/
def parseJsonFields : Nat → List Char → List (String × Json) →
    Option (Json × List Char)
  | 0, _, _ => none
  | fuel + 1, l, acc =>
    match l with
    | '"' :: rest =>
      match jsonStringBody (rest.length + 1) rest with
      | none => none
      | some (key, r1) =>
        match expectChar ':' (r1.dropWhile jsonWsChar) with
        | none => none
        | some r3 =>
          match parseJsonVal fuel r3 with
          | none => none
          | some (v, r4) =>
            match r4.dropWhile jsonWsChar with
            | ',' :: r6 => parseJsonFields fuel (r6.dropWhile jsonWsChar) (acc ++ [(⟨key⟩, v)])
            | '}' :: r6 => some (.obj (acc ++ [(⟨key⟩, v)]), r6)
            | _ => none
    | _ => none

/-- The elements of an array after its opening bracket. -/
def parseJsonElems : Nat → List Char → List Json → Option (Json × List Char)
  | 0, _, _ => none
  | fuel + 1, l, acc =>
    match parseJsonVal fuel l with
    | none => none
    | some (v, r1) =>
      match r1.dropWhile jsonWsChar with
      | ',' :: r3 => parseJsonElems fuel r3 (acc ++ [v])
      | ']' :: r3 => some (.arr (acc ++ [v]), r3)
      | _ => none

end

/-- `JSON.parse`: one value, nothing but whitespace around it;
`none` models a thrown `SyntaxError`. -/
def jsonParse (s : String) : Option Json :=
  match parseJsonVal (s.data.length + 1) s.data with
  | some (v, rest) => if (rest.dropWhile jsonWsChar).isEmpty then some v else none
  | none => none

/-- Property access (`obj.key`); later duplicate keys win as in
`JSON.parse`. Non-objects have no such property (`undefined`). -/
def jsonGet (j : Json) (key : String) : Option Json :=
  match j with
  | .obj fields => ((fields.filter (fun f => f.1 == key)).getLast?).map (fun f => f.2)
  | _ => none

/-- Index access `x?.[0]`: the first array element, a `"0"` field of an
object, or the first character of a string. -/
def jsonIdx0 : Json → Option Json
  | .arr (x :: _) => some x
  | .arr [] => none
  | .obj fields => ((fields.filter (fun f => f.1 == "0")).getLast?).map (fun f => f.2)
  | .str s =>
    match s.data with
    | c :: _ => some (.str ⟨[c]⟩)
    | [] => none
  | _ => none

/-- JS truthiness of a possibly-`undefined` value. -/
def jsTruthy : Option Json → Bool
  | none => false
  | some .null => false
  | some (.bool b) => b
  | some (.num q) => decide (q ≠ 0)
  | some (.str s) => !s.isEmpty
  | some (.arr _) => true
  | some (.obj _) => true

/-! ## Stream Decoder (`src/app/api/ai/route.ts` lines 166-225)

The `ReadableStream` body that re-encodes the upstream OpenRouter SSE
stream. Each `controller.enqueue` of a
`data: {"type": ..., "data": ...}` frame is modelled as a typed event
carrying the JSON value that would be serialized into the frame. -/

/-- One normalized event enqueued to the client. -/
inductive StreamEvent where
  | content (d : Json)
  | thinking (d : Json)
  deriving Repr

/-- The decoder loop state: the partial-line buffer, the events enqueued
so far, and whether the controller was closed by `[DONE]`. -/
structure DecoderState where
  buffer : String
  events : List StreamEvent
  closed : Bool

/-- Process one complete line (route.ts lines 189-217): only `data: `
lines count; `[DONE]` closes and returns; other payloads are parsed as
JSON (invalid JSON skipped) and the `choices[0].delta.content` /
`.reasoning` deltas are emitted when truthy. -/
def processDataLine (line : String) (st : DecoderState) : DecoderState :=
  if jsStartsWith line "data: " then
    let data := jsTrim ⟨line.data.drop 6⟩
    if data == "[DONE]" then { st with closed := true }
    else
      match jsonParse data with
      | none => st
      | some parsed =>
        let delta := ((jsonGet parsed "choices").bind jsonIdx0).bind (fun d => jsonGet d "delta")
        let content := delta.bind (fun d => jsonGet d "content")
        let reasoning := delta.bind (fun d => jsonGet d "reasoning")
        let st := if jsTruthy content then
            { st with events := st.events ++ [.content (content.getD .null)] } else st
        if jsTruthy reasoning then
          { st with events := st.events ++ [.thinking (reasoning.getD .null)] }
        else st
  else st

/-- Process the complete lines of one chunk, stopping at `[DONE]` (the
source `return`s out of the whole loop there). -/
def processLines : List String → DecoderState → DecoderState
  | [], st => st
  | line :: rest, st =>
    if st.closed then st else processLines rest (processDataLine line st)

/-- One `reader.read()` result: append to the buffer, split on newlines,
keep the last partial line buffered, process the rest. -/
def processChunk (chunk : String) (st : DecoderState) : DecoderState :=
  let parts := jsSplit (st.buffer ++ chunk) "\n"
  processLines parts.dropLast { st with buffer := parts.getLastD "" }

/-- The whole read loop over a list of decoded chunks; a closed
controller reads no further (the `[DONE]` branch returns). -/
def runDecoder : List String → DecoderState → DecoderState
  | [], st => st
  | c :: cs, st => if st.closed then st else runDecoder cs (processChunk c st)

/-- The events the route's stream emits for the given upstream chunks. -/
def decodeSSE (chunks : List String) : List StreamEvent :=
  (runDecoder chunks ⟨"", [], false⟩).events

/-! ## Generation Session (`frontend-design.ts` lines 695-826, `useAIChat`)

`sendMessage` is modelled over a script of externally-determined
outcomes: what `fetch` resolves to, and the result of each
`reader.read()` in order. An abort (from `cancel()` or from starting a
new request) surfaces as an `AbortError` rejection of the pending
`fetch`/`read`, which is the `abortRaised` step. -/

/-- One `reader.read()` outcome: a decoded text chunk, an `AbortError`
rejection (the abort signal fired), or a transport error rejection. The
end of the step list is the `done` read. -/
inductive ReadStep where
  | chunk (s : String)
  | abortRaised
  | failRaised (msg : String)

/-- What `fetch` itself resolves to. -/
inductive FetchOutcome where
  | fetchAborted
  | fetchFailed (msg : String)
  | httpError (errorField : Option String)
  | ok (steps : List ReadStep)

/-- The accumulating read-loop state (`buffer`, `fullContent`,
`fullThinking`). -/
structure SessionBuf where
  buffer : String
  fullContent : String
  fullThinking : String

/-- Process one complete client-side SSE line (lines 759-777): `data: `
lines parsed as JSON, `type === "content"` extends `fullContent`,
`type === "thinking"` extends `fullThinking`, bad JSON skipped. The
`data` field of the frames produced by this repository's route is always
a string; other values would be coerced, modelled here by ignoring
non-string payloads only in that unreachable case. -/
def clientLine (line : String) (buf : SessionBuf) : SessionBuf :=
  if jsStartsWith line "data: " then
    match jsonParse ⟨line.data.drop 6⟩ with
    | none => buf
    | some d =>
      match jsonGet d "type" with
      | some (.str t) =>
        if t == "content" then
          match jsonGet d "data" with
          | some (.str s) => { buf with fullContent := buf.fullContent ++ s }
          | _ => buf
        else if t == "thinking" then
          match jsonGet d "data" with
          | some (.str s) => { buf with fullThinking := buf.fullThinking ++ s }
          | _ => buf
        else buf
      | _ => buf
  else buf

/-- One chunk through the client loop: split the buffer on blank lines,
keep the trailing partial part, process the complete parts. -/
def clientChunk (chunk : String) (buf : SessionBuf) : SessionBuf :=
  let parts := jsSplit (buf.buffer ++ chunk) "\n\n"
  (parts.dropLast).foldl (fun b line => clientLine line b)
    { buf with buffer := parts.getLastD "" }

/-- How the read loop ends. -/
inductive LoopExit where
  | finished (fullContent : String)
  | abortedDuring
  | failedDuring (msg : String)

/-- The `while (true) ... reader.read()` loop (lines 748-778). -/
def runReadLoop : List ReadStep → SessionBuf → LoopExit
  | [], buf => .finished buf.fullContent
  | .chunk s :: rest, buf => runReadLoop rest (clientChunk s buf)
  | .abortRaised :: _, _ => .abortedDuring
  | .failRaised msg :: _, _ => .failedDuring msg

/-- The observable outcome of one `sendMessage` call: its return/throw,
and every `onComplete` / `onError` callback invocation. -/
structure SessionOutcome where
  result : Except String (Option String)
  completions : List (String × String)
  errors : List String
  deriving Repr

/-- `sendMessage` (lines 704-799) over a script: an `AbortError`
anywhere returns `null` with no completion/error callback; a non-ok
response or transport error invokes `onError` and rethrows; a finished
stream extracts the HTML, invokes `onComplete` and returns the
extraction. -/
def sendMessage (script : FetchOutcome) : SessionOutcome :=
  match script with
  | .fetchAborted => { result := .ok none, completions := [], errors := [] }
  | .fetchFailed msg => { result := .error msg, completions := [], errors := [msg] }
  | .httpError errorField =>
    let msg := errorField.getD "Failed to generate content"
    { result := .error msg, completions := [], errors := [msg] }
  | .ok steps =>
    match runReadLoop steps ⟨"", "", ""⟩ with
    | .abortedDuring => { result := .ok none, completions := [], errors := [] }
    | .failedDuring msg => { result := .error msg, completions := [], errors := [msg] }
    | .finished fullContent =>
      let extracted := extractHtml fullContent
      { result := .ok (some extracted),
        completions := [(fullContent, extracted)],
        errors := [] }

/-! ## Concrete inputs used by counterexamples and witnesses -/

/-- A sample style change. -/
def sampleChange : StyleChange :=
  ⟨"id1", ".x", "color", .str "red", .str "blue", 1⟩

/-- Same `(selector, property)` as `sampleChange`, later values. -/
def sampleChangeLater : StyleChange :=
  ⟨"id3", ".x", "color", .str "blue", .str "green", 3⟩

/-- A change to a different `(selector, property)`. -/
def otherChange : StyleChange :=
  ⟨"id2", ".y", "width", .str "1px", .str "2px", 2⟩

/-- A one-block response whose replacement text uses the JS `$&`
substitution pattern. -/
def dollarResponse : String := mkPatchBlock "a" "$&$&"

/-- A complete little HTML document. -/
def tinyDoc : String := "<!DOCTYPE html><html></html>"

/-- A document that contains `tinyDoc` after a leading byte. -/
def prefixedDoc : String := "x" ++ tinyDoc

/-- A one-block response whose search and replacement are the same full
document. -/
def identityResponse : String := mkPatchBlock tinyDoc tinyDoc

/-- Raw AI output that starts with a doctype and also contains a fenced
`html` block. -/
def doctypeThenFence : String :=
  "<!DOCTYPE html>\n```html\n<p>hi</p>\n```"

/-- The spec's end-to-end stream: one content delta, then the sentinel. -/
def contentHiChunk : String :=
  "data: \x7b\"choices\":[\x7b\"delta\":\x7b\"content\":\"Hi\"\x7d\x7d]\x7d\n\n"

def doneChunk : String := "data: [DONE]\n\n"

/-- The bound the history code actually maintains: `past` never exceeds
`maxSize` entries, hence `past.length + (present != null ? 1 : 0)` never
exceeds `maxSize + 1`. -/
def pastBound (maxSize : Nat) (st : HistState) : Prop :=
  st.past.length ≤ maxSize ∧
    st.past.length + (if st.present.isSome then 1 else 0) ≤ maxSize + 1

/-! # Theorems -/

/-! ## Helper lemmas -/

theorem data_mk (l : List Char) : (String.mk l).data = l := rfl

theorem sliceLast_length_le {α : Type} (m : Nat) (hm : 1 ≤ m) (l : List α) :
    (sliceLast m l).length ≤ m := by
  unfold sliceLast
  have : ¬ m = 0 := by omega
  simp [this]
  omega

theorem commitBatch_pastBound (m : Nat) (hm : 1 ≤ m) (b : ChangeBatch) (st : HistState)
    (h : st.past.length ≤ m) : pastBound m (commitBatch m b st) := by
  unfold commitBatch pastBound
  cases hp : st.present with
  | none =>
    refine ⟨h, ?_⟩
    simp only [Option.isSome_some, if_pos]
    omega
  | some p =>
    have h1 := sliceLast_length_le m hm (st.past ++ [p])
    refine ⟨h1, ?_⟩
    simp only [Option.isSome_some, if_pos]
    omega

theorem pastBound_of_le (m : Nat) (st : HistState) (h : st.past.length ≤ m) :
    pastBound m st := by
  refine ⟨h, ?_⟩
  cases st.present <;> simp <;> omega

theorem flushBatch_past_le (m : Nat) (hm : 1 ≤ m) (st : HistState)
    (h : st.past.length ≤ m) : (flushBatch m st).past.length ≤ m := by
  unfold flushBatch
  split
  · exact h
  · exact (commitBatch_pastBound m hm st.pending st h).1

theorem undo_pastBound (m : Nat) (hm : 1 ≤ m) (st : HistState) (h : st.past.length ≤ m) :
    pastBound m (undo m st).2 := by
  have h1 : (if st.pending.isEmpty then st else flushBatch m st).past.length ≤ m := by
    split
    · exact h
    · exact flushBatch_past_le m hm st h
  simp only [undo]
  by_cases hpe : (if st.pending.isEmpty then st else flushBatch m st).past.isEmpty = true
  · rw [if_pos hpe]
    exact pastBound_of_le m _ h1
  · rw [if_neg hpe]
    refine pastBound_of_le m _ ?_
    show (if st.pending.isEmpty then st else flushBatch m st).past.dropLast.length ≤ m
    rw [List.length_dropLast]
    omega

theorem redo_pastBound (m : Nat) (hm : 1 ≤ m) (st : HistState) (h : st.past.length ≤ m) :
    pastBound m (redo m st).2 := by
  unfold redo
  cases hf : st.future with
  | nil => exact pastBound_of_le m st h
  | cons nextState restFuture =>
    refine pastBound_of_le m _ ?_
    cases hp : st.present with
    | none => exact h
    | some p => exact sliceLast_length_le m hm _

/-! ## C6 -/

/-- C6 (corrected), counterexample to the claim as stated: the bound
`past.length + (present != null ? 1 : 0) <= maxSize` is violated after
the third committed batch with `maxSize = 2` — the eviction
`[...past, present].slice(-maxSize)` keeps `maxSize` past entries and a
non-null `present` then makes the sum `maxSize + 1`. -/
theorem C6_counterexample :
    specHistoryBound 2
      (batchChanges 2 [sampleChangeLater]
        (batchChanges 2 [otherChange]
          (batchChanges 2 [sampleChange] initHistState))) = false := by decide

/-- C6 (amended): after each operation (the debounce flush,
`batchChanges`, `undo`, `redo`) run from a state whose past holds at
most `maxSize` entries, the past still holds at most `maxSize` entries
and `past.length + (present != null ? 1 : 0) <= maxSize + 1`; the oldest
past entries are the ones evicted on overflow. -/
theorem C6_bound_amended (m : Nat) (st : HistState) (cs : ChangeBatch)
    (hm : 1 ≤ m) (h : st.past.length ≤ m) :
    pastBound m (flushBatch m st) ∧ pastBound m (batchChanges m cs st) ∧
    pastBound m (undo m st).2 ∧ pastBound m (redo m st).2 := by
  refine ⟨?_, ?_, undo_pastBound m hm st h, redo_pastBound m hm st h⟩
  · unfold flushBatch
    split
    · exact pastBound_of_le m st h
    · exact commitBatch_pastBound m hm _ _ h
  · exact commitBatch_pastBound m hm _ _ h

/-- Witness for C6: the amended bound at a concrete state. -/
theorem C6_witness :
    pastBound 2 (flushBatch 2 initHistState) ∧
    pastBound 2 (batchChanges 2 [sampleChange] initHistState) ∧
    pastBound 2 (undo 2 initHistState).2 ∧
    pastBound 2 (redo 2 initHistState).2 :=
  C6_bound_amended 2 initHistState [sampleChange] (by decide) (by decide)

/-! ## C10 -/

/-- C10 (confirmed): with empty `past`, a non-null `present` and no
pending changes, `undo` returns `null` and leaves the state unchanged,
while `canUndo` still reports `true` (it also counts `present`). -/
theorem C10_undo_empty_past (m : Nat) (st : HistState)
    (hpend : st.pending = []) (hpast : st.past = [])
    (hpres : st.present.isSome = true) :
    undo m st = (none, st) ∧ canUndo st = true := by
  constructor
  · simp [undo, hpend, hpast]
  · simp [canUndo, hpres]

/-- Witness for C10 at a concrete state. -/
theorem C10_witness :
    undo 50 ⟨[], some [sampleChange], [], []⟩ = (none, ⟨[], some [sampleChange], [], []⟩) ∧
    canUndo ⟨[], some [sampleChange], [], []⟩ = true :=
  C10_undo_empty_past 50 ⟨[], some [sampleChange], [], []⟩ rfl rfl rfl

/-! ## C7 -/

theorem getLastD_cons_eq {α : Type} (a d : α) (l : List α) :
    (a :: l).getLastD d = l.getLastD a := by
  cases l <;> simp [List.getLastD]

theorem pushPending_head_key (c y : StyleChange) (ys : List StyleChange) :
    ∃ h t, pushPending c (y :: ys) = h :: t ∧
      h.selector = y.selector ∧ h.property = y.property := by
  cases ys with
  | nil =>
    by_cases hk : (y.selector == c.selector && y.property == c.property) = true
    · exact ⟨{ y with newValue := c.newValue, timestamp := c.timestamp }, [],
        by simp [pushPending, hk], rfl, rfl⟩
    · exact ⟨y, [c], by simp [pushPending, hk], rfl, rfl⟩
  | cons z zs => exact ⟨y, pushPending c (z :: zs), rfl, rfl, rfl⟩

theorem pushPending_adjacent (c : StyleChange) :
    ∀ p, adjacentKeysDistinct p = true → adjacentKeysDistinct (pushPending c p) = true := by
  intro p
  induction p with
  | nil => intro _; rfl
  | cons x p2 ih =>
    intro hadj
    cases p2 with
    | nil =>
      by_cases hk : (x.selector == c.selector && x.property == c.property) = true
      · simp [pushPending, hk, adjacentKeysDistinct]
      · have hsk : sameKey x c = false := by unfold sameKey; simpa using hk
        simp [pushPending, hk, adjacentKeysDistinct, hsk]
    | cons y rest =>
      have hx : (!sameKey x y) = true ∧ adjacentKeysDistinct (y :: rest) = true := by
        simpa [adjacentKeysDistinct, Bool.and_eq_true] using hadj
      obtain ⟨h, t, heq, hsel, hprop⟩ := pushPending_head_key c y rest
      have hrec := ih hx.2
      rw [heq] at hrec
      show adjacentKeysDistinct (x :: pushPending c (y :: rest)) = true
      rw [heq]
      simp only [adjacentKeysDistinct, Bool.and_eq_true]
      refine ⟨?_, hrec⟩
      have : sameKey x h = sameKey x y := by simp [sameKey, hsel, hprop]
      rw [this]
      exact hx.1

theorem pushRun :
    ∀ (cs : List StyleChange) (e : StyleChange), (∀ d ∈ cs, sameKey e d = true) →
      cs.foldl (fun p c => pushPending c p) [e] =
        [{ e with newValue := (cs.getLastD e).newValue,
                  timestamp := (cs.getLastD e).timestamp }] := by
  intro cs
  induction cs with
  | nil => intro e _; rfl
  | cons d cs2 ih =>
    intro e h
    have hd : (e.selector == d.selector && e.property == d.property) = true :=
      h d (by simp)
    have hpush : pushPending d [e] =
        [{ e with newValue := d.newValue, timestamp := d.timestamp }] := by
      simp [pushPending, hd]
    rw [List.foldl_cons, hpush,
      ih { e with newValue := d.newValue, timestamp := d.timestamp }
        (fun x hx => h x (List.mem_cons_of_mem _ hx)),
      getLastD_cons_eq]
    cases cs2 with
    | nil => rfl
    | cons z zs => rw [getLastD_cons_eq, getLastD_cons_eq]

/-- C7 (corrected), counterexample to the claim as stated: `pushChange`
coalesces only with the *most recent* pending entry, so interleaving a
different `(selector, property)` produces a committed batch with two
entries sharing the same `(selector, property)`. -/
theorem C7_counterexample :
    (flushBatch 50 (pushChange sampleChangeLater (pushChange otherChange
        (pushChange sampleChange initHistState)))).present =
      some [sampleChange, otherChange, sampleChangeLater] ∧
    batchKeysDistinct [sampleChange, otherChange, sampleChangeLater] = false := by
  exact ⟨rfl, rfl⟩

/-- C7 (amended): within a batch no two *adjacent* entries share
`(selector, property)` — `pushChange` preserves that invariant of the
pending list, the flushed batch is exactly the pending list, and a run
of consecutive pushes to one `(selector, property)` coalesces into a
single entry keeping the oldest `oldValue` and the newest
`newValue`/`timestamp`. -/
theorem C7_coalescing_amended :
    (∀ (c : StyleChange) (p : List StyleChange), adjacentKeysDistinct p = true →
        adjacentKeysDistinct (pushPending c p) = true) ∧
    (∀ (m : Nat) (st : HistState), st.pending.isEmpty = false →
        (flushBatch m st).present = some st.pending) ∧
    (∀ (e : StyleChange) (cs : List StyleChange), (∀ d ∈ cs, sameKey e d = true) →
        cs.foldl (fun p c => pushPending c p) [e] =
          [{ e with newValue := (cs.getLastD e).newValue,
                    timestamp := (cs.getLastD e).timestamp }]) := by
  refine ⟨fun c p => pushPending_adjacent c p, ?_, fun e cs h => pushRun cs e h⟩
  intro m st hne
  unfold flushBatch
  rw [if_neg (by simp [hne])]
  rfl

/-- Witness for C7 at concrete inputs. -/
theorem C7_witness :
    adjacentKeysDistinct (pushPending sampleChangeLater [sampleChange, otherChange]) = true ∧
    (flushBatch 50 ⟨[], none, [], [sampleChange]⟩).present = some [sampleChange] ∧
    [sampleChangeLater].foldl (fun p c => pushPending c p) [sampleChange] =
      [{ sampleChange with
          newValue := ([sampleChangeLater].getLastD sampleChange).newValue,
          timestamp := ([sampleChangeLater].getLastD sampleChange).timestamp }] :=
  ⟨C7_coalescing_amended.1 sampleChangeLater [sampleChange, otherChange] (by decide),
   C7_coalescing_amended.2.1 50 ⟨[], none, [], [sampleChange]⟩ (by decide),
   C7_coalescing_amended.2.2 sampleChange [sampleChangeLater] (by decide)⟩

/-! ## C2 -/

theorem foldl_patch_skip (doc : String) :
    ∀ ps : List (String × String), (∀ p ∈ ps, jsIncludes doc p.1 = false) →
      ps.foldl (fun acc p => if jsIncludes acc p.1 then jsReplace acc p.1 p.2 else acc) doc
        = doc := by
  intro ps
  induction ps with
  | nil => intro _; rfl
  | cons p ps2 ih =>
    intro h
    rw [List.foldl_cons, if_neg (by simp [h p (by simp)])]
    exact ih (fun q hq => h q (List.mem_cons_of_mem _ hq))

/-- C2 (confirmed): `applySearchReplace` is a total function (it never
raises), and when no extracted pair's search text occurs in the document
and the full-document fallback extraction does not start with
`<!DOCTYPE` or `<html`, the returned document is the input document,
byte for byte. -/
theorem C2_no_match_identity (doc resp : String)
    (hnm : ∀ p ∈ extractPatches resp, jsIncludes doc p.1 = false)
    (hd : jsStartsWith (extractHtml resp) "<!DOCTYPE" = false)
    (hh : jsStartsWith (extractHtml resp) "<html" = false) :
    applySearchReplace doc resp = doc := by
  simp only [applySearchReplace]
  rw [foldl_patch_skip doc (extractPatches resp) hnm,
    if_pos (beq_self_eq_true doc), if_neg (by simp [hd, hh])]

/-- Witness for C2: a response with no patch blocks and no document
leaves the document untouched. -/
theorem C2_witness :
    applySearchReplace "hello" "no patches here" = "hello" :=
  C2_no_match_identity "hello" "no patches here" (by decide) (by decide) (by decide)

/-! ## C1 -/

theorem string_data_inj {a b : String} (h : a.data = b.data) : a = b :=
  congrArg String.mk h

theorem getSubstitution_no_dollar (m b a : List Char) :
    ∀ l, (∀ c ∈ l, c ≠ '$') → getSubstitution m b a l = l := by
  intro l
  induction l with
  | nil => intro _; rfl
  | cons c tail ih =>
    intro h
    cases tail with
    | nil => rfl
    | cons d rest =>
      have hc : ¬ c = '$' := h c (by simp)
      show getSubstitution m b a (c :: d :: rest) = c :: d :: rest
      rw [getSubstitution, if_neg hc]
      exact congrArg (List.cons c) (ih (fun x hx => h x (List.mem_cons_of_mem _ hx)))

theorem findSubIdx_decomp :
    ∀ (l pat : List Char) (i : Nat), findSubIdx pat l = some i →
      l = l.take i ++ pat ++ l.drop (i + pat.length) := by
  intro l
  induction l with
  | nil =>
    intro pat i h
    by_cases hp : pat.isEmpty = true
    · have hpe : pat = [] := List.isEmpty_iff.mp hp
      subst hpe
      simp [findSubIdx] at h
      simp [← h]
    · simp [findSubIdx, hp] at h
  | cons x t ih =>
    intro pat i h
    rw [findSubIdx] at h
    by_cases hpre : pat.isPrefixOf (x :: t) = true
    · rw [if_pos hpre] at h
      have hi : i = 0 := by simpa using h.symm
      subst hi
      obtain ⟨suf, hsuf⟩ := List.isPrefixOf_iff_prefix.mp hpre
      rw [← hsuf]
      simp [List.drop_left]
    · rw [if_neg hpre] at h
      cases hfj : findSubIdx pat t with
      | none => rw [hfj] at h; simp at h
      | some j =>
        rw [hfj] at h
        simp only [Option.map] at h
        have hij : i = j + 1 := by simpa using h.symm
        subst hij
        have hrec := ih pat j hfj
        have harr : j + 1 + pat.length = (j + pat.length) + 1 := by omega
        rw [harr, List.take_succ_cons, List.drop_succ_cons]
        exact congrArg (List.cons x) hrec

theorem jsReplace_no_dollar (doc s r : String) (h : ∀ c ∈ r.data, c ≠ '$') :
    jsReplace doc s r = replaceFirstOccurrence doc s r := by
  cases hfi : findSubIdx s.data doc.data with
  | none => simp only [jsReplace, replaceCharsFirst, replaceFirstOccurrence, hfi]
  | some i =>
    simp only [jsReplace, replaceCharsFirst, replaceFirstOccurrence, hfi]
    rw [getSubstitution_no_dollar _ _ _ r.data h]

theorem replaceFirstOccurrence_ne (doc s r : String)
    (hinc : jsIncludes doc s = true) (hne : r ≠ s) :
    replaceFirstOccurrence doc s r ≠ doc := by
  have hex : ∃ i, findSubIdx s.data doc.data = some i := by
    simp only [jsIncludes, containsSub, Option.isSome_iff_exists] at hinc
    exact hinc
  obtain ⟨i, hfi⟩ := hex
  simp only [replaceFirstOccurrence, hfi]
  intro heq
  have hdata : doc.data.take i ++ r.data ++ doc.data.drop (i + s.data.length) = doc.data :=
    congrArg String.data heq
  have hdecomp := findSubIdx_decomp doc.data s.data i hfi
  rw [List.append_assoc] at hdata
  rw [List.append_assoc] at hdecomp
  nth_rewrite 3 [hdecomp] at hdata
  have h2 := List.append_cancel_left hdata
  have h3 : r.data = s.data := List.append_cancel_right h2
  exact hne (string_data_inj h3)

/-- C1 (corrected), counterexample to the claim as stated, in two parts:
a replacement text containing the JS substitution pattern is not
inserted literally (the source uses `String.prototype.replace`), and a
block whose replacement equals its search text leaves the document
"unchanged", which triggers the full-document fallback and can replace
the document wholesale. -/
theorem C1_counterexample :
    (extractPatches dollarResponse = [("a", "$&$&")] ∧
     jsIncludes "ab" "a" = true ∧
     applySearchReplace "ab" dollarResponse ≠ replaceFirstOccurrence "ab" "a" "$&$&") ∧
    (extractPatches identityResponse = [(tinyDoc, tinyDoc)] ∧
     jsIncludes prefixedDoc tinyDoc = true ∧
     applySearchReplace prefixedDoc identityResponse ≠
       replaceFirstOccurrence prefixedDoc tinyDoc tinyDoc) := by
  exact ⟨⟨by decide, by decide, by decide⟩, ⟨by decide, by decide, by decide⟩⟩

/-- C1 (amended): for a response carrying exactly one SEARCH/REPLACE
pair whose (trimmed) search text occurs in the document, provided the
(trimmed) replacement text contains no `$` character and differs from
the search text, `applySearchReplace` replaces exactly the first
occurrence of the search text with the replacement text and leaves all
other text byte-identical. -/
theorem C1_first_occurrence (doc resp s r : String)
    (hp : extractPatches resp = [(s, r)])
    (hinc : jsIncludes doc s = true)
    (hnd : ∀ c ∈ r.data, c ≠ '$')
    (hne : r ≠ s) :
    applySearchReplace doc resp = replaceFirstOccurrence doc s r := by
  simp only [applySearchReplace, hp, List.foldl_cons, List.foldl_nil]
  rw [if_pos hinc, jsReplace_no_dollar doc s r hnd,
    if_neg (by simpa using replaceFirstOccurrence_ne doc s r hinc hne)]

/-- Witness for C1: the spec's end-to-end scenario 2. -/
theorem C1_witness :
    applySearchReplace "<body><h1>Old</h1><p>x</p></body>"
        (mkPatchBlock "<h1>Old</h1>" "<h1>New</h1>") =
      replaceFirstOccurrence "<body><h1>Old</h1><p>x</p></body>" "<h1>Old</h1>" "<h1>New</h1>" :=
  C1_first_occurrence _ _ "<h1>Old</h1>" "<h1>New</h1>"
    (by decide) (by decide) (by decide) (by decide)

/-! ## C3 -/

/-- C3 (corrected), counterexample to the claim as stated: raw output
that starts with a doctype *and* contains a fenced `html` block is
returned whole by `extractHtml`, while the spec's ordered fallback would
prefer the fenced block's content. -/
theorem C3_counterexample :
    extractHtml doctypeThenFence ≠ specExtractHtml doctypeThenFence := by decide

/-- C3 (amended): extraction first returns the trimmed raw text whenever
it already starts with `<!DOCTYPE` or `<html`; only otherwise does it
follow the ordered fallback (fenced `html` blocks joined by newlines;
else the doctype-to-`</html>` regex match; else the
`<html>`-to-`</html>` match; else the trimmed raw text). In particular
raw output that is itself a complete document is returned verbatim
(trimmed) by the first step. -/
theorem C3_extract_order_amended : ∀ c, extractHtml c = specExtractHtmlAmended c :=
  fun _ => rfl

/-! ## C8 -/

theorem isHexDigit_not_space {c : Char} (h : isHexDigit c = true) : jsIsSpace c = false := by
  simp only [isHexDigit, isDigitChar, Bool.or_eq_true, Bool.and_eq_true,
    decide_eq_true_eq] at h
  simp only [jsIsSpace, Bool.or_eq_false_iff, decide_eq_false_iff_not]
  omega

theorem dropWhile_of_false {p : Char → Bool} :
    ∀ l : List Char, (∀ c ∈ l, p c = false) → l.dropWhile p = l := by
  intro l h
  cases l with
  | nil => rfl
  | cons x t => rw [List.dropWhile_cons, if_neg (by simp [h x (by simp)])]

theorem trimChars_no_space (l : List Char) (h : ∀ c ∈ l, jsIsSpace c = false) :
    trimChars l = l := by
  unfold trimChars
  rw [dropWhile_of_false l h,
    dropWhile_of_false l.reverse (fun c hc => h c (List.mem_reverse.mp hc)),
    List.reverse_reverse]

/-- C8 (corrected), counterexample to the claim as stated: the 3-digit
hex branch keeps each digit's original case, so an upper-case input is
not lower-cased. -/
theorem C8_counterexample :
    validateColor (.str "#ABC") =
      { isValid := true, sanitizedValue := .str "#AABBCC" } ∧
    ("#AABBCC" : String) ≠ "#aabbcc" := by
  exact ⟨rfl, by decide⟩

/-- C8 (amended): for every 3-digit hex color, `validateColor` returns
`isValid = true` with the 6-digit expansion obtained by doubling each
digit in its original case (for lower-case input this is the lower-case
expansion, e.g. `#abc ↦ #aabbcc`). -/
theorem C8_hex3_expansion (c1 c2 c3 : Char)
    (h1 : isHexDigit c1 = true) (h2 : isHexDigit c2 = true) (h3 : isHexDigit c3 = true) :
    validateColor (.str ⟨['#', c1, c2, c3]⟩) =
      { isValid := true, sanitizedValue := .str ⟨['#', c1, c1, c2, c2, c3, c3]⟩ } := by
  have htrim : trimChars ['#', c1, c2, c3] = ['#', c1, c2, c3] := by
    refine trimChars_no_space _ ?_
    intro c hc
    simp only [List.mem_cons, List.not_mem_nil, or_false] at hc
    rcases hc with rfl | rfl | rfl | rfl
    · decide
    · exact isHexDigit_not_space h1
    · exact isHexDigit_not_space h2
    · exact isHexDigit_not_space h3
  simp only [validateColor, jsTrim, data_mk, htrim, parseColor, isHex3, h1, h2, h3,
    Bool.and_self, if_pos, hex3Expand]

/-- Witness for C8: the spec's own example, `#abc`. -/
theorem C8_witness :
    validateColor (.str ⟨['#', 'a', 'b', 'c']⟩) =
      { isValid := true, sanitizedValue := .str ⟨['#', 'a', 'a', 'b', 'b', 'c', 'c']⟩ } :=
  C8_hex3_expansion 'a' 'b' 'c' (by decide) (by decide) (by decide)

/-! ## C9 -/

theorem parse_calc_none (t : String) (h : jsStartsWith t "calc(" = true) :
    parseCSSLength t = none := by
  unfold jsStartsWith at h
  unfold parseCSSLength
  cases hl : t.data with
  | nil => rw [hl] at h; exact absurd h (by decide)
  | cons x xs =>
    rw [hl] at h
    have hcalc : ("calc(" : String).data = 'c' :: ['a', 'l', 'c', '('] := rfl
    rw [hcalc, List.isPrefixOf] at h
    have hx : x = 'c' := by
      have h1 := (Bool.and_eq_true _ _).mp h |>.1
      exact (beq_iff_eq.mp h1).symm
    subst hx
    have h1 : ¬ ('c' = '-') := by decide
    have h2 : isDigitDot 'c' = false := by decide
    simp [parseLenChars, parseLenBody, List.takeWhile_cons, h1, h2]

theorem keyword_not_parsed (t : String) (kws : List String) (p : CSSLength)
    (hp : parseCSSLength t = some p)
    (hnone : ∀ k ∈ kws, parseCSSLength k = none) :
    kws.contains t = false := by
  by_contra hkk
  rw [Bool.not_eq_false] at hkk
  have hmem : t ∈ kws := by simpa using hkk
  have := hnone t hmem
  rw [hp] at this
  exact Option.noConfusion this

/-- C9 (corrected), counterexample to the claim as stated: a negative
*numeric* input is also a negative CSS length (the validators default it
to `px`), yet `validateDimension` accepts it with *no* warning — the
numeric fast path never checks the sign. -/
theorem C9_counterexample :
    (validateDimension (.num (some (-5)))).isValid = true ∧
    (validateDimension (.num (some (-5)))).warning = none ∧
    jsNumNeg (some (-5)) = true :=
  ⟨rfl, rfl, by decide⟩

/-- C9 (amended): for every negative CSS length *string*,
`validateDimension` accepts with a warning, `validateSpacing` accepts
with no warning, and `validateBorderRadius`/`validateBorderWidth` reject
with an error; a negative *numeric* input is accepted without warning by
`validateDimension` and `validateSpacing` (the `value < 0` check is
reached only on the string path) and rejected by the two border
validators. -/
theorem C9_negative_length_amended :
    (∀ (v : String) (p : CSSLength),
        parseCSSLength (jsTrim v) = some p → jsNumNeg p.value = true →
        ((validateDimension (.str v)).isValid = true ∧
         (validateDimension (.str v)).warning.isSome = true) ∧
        ((validateSpacing (.str v)).isValid = true ∧
         (validateSpacing (.str v)).warning = none) ∧
        ((validateBorderRadius (.str v)).isValid = false ∧
         (validateBorderRadius (.str v)).error.isSome = true) ∧
        ((validateBorderWidth (.str v)).isValid = false ∧
         (validateBorderWidth (.str v)).error.isSome = true)) ∧
    (∀ q : ℚ, q < 0 →
        validateDimension (.num (some q)) =
          { isValid := true, sanitizedValue := .str (numToString (some q) ++ "px") } ∧
        validateSpacing (.num (some q)) =
          { isValid := true, sanitizedValue := .str (numToString (some q) ++ "px") } ∧
        validateBorderRadius (.num (some q)) =
          { isValid := false, sanitizedValue := .num (some q),
            error := some "Border radius cannot be negative" } ∧
        validateBorderWidth (.num (some q)) =
          { isValid := false, sanitizedValue := .num (some q),
            error := some "Border width cannot be negative" }) := by
  constructor
  · intro v p hp hneg
    have hcalc : jsStartsWith (jsTrim v) "calc(" = false := by
      by_contra hcc
      rw [Bool.not_eq_false] at hcc
      rw [parse_calc_none _ hcc] at hp
      exact Option.noConfusion hp
    have hkwD : (["auto", "inherit", "initial", "unset", "fit-content", "max-content",
        "min-content", "none"] : List String).contains (jsTrim v) = false :=
      keyword_not_parsed _ _ p hp (by decide)
    have hkwS : (["auto", "inherit", "initial", "unset"] : List String).contains
        (jsTrim v) = false :=
      keyword_not_parsed _ _ p hp (by decide)
    have hkwR : (["inherit", "initial", "unset"] : List String).contains
        (jsTrim v) = false :=
      keyword_not_parsed _ _ p hp (by decide)
    have hkwW : (["thin", "medium", "thick", "inherit", "initial", "unset"] :
        List String).contains (jsTrim v) = false :=
      keyword_not_parsed _ _ p hp (by decide)
    have hkwD2 : ¬(jsTrim v = "auto" ∨ jsTrim v = "inherit" ∨ jsTrim v = "initial" ∨
        jsTrim v = "unset" ∨ jsTrim v = "fit-content" ∨ jsTrim v = "max-content" ∨
        jsTrim v = "min-content" ∨ jsTrim v = "none") := by simpa using hkwD
    have hkwS2 : ¬(jsTrim v = "auto" ∨ jsTrim v = "inherit" ∨ jsTrim v = "initial" ∨
        jsTrim v = "unset") := by simpa using hkwS
    have hkwR2 : ¬(jsTrim v = "inherit" ∨ jsTrim v = "initial" ∨ jsTrim v = "unset") := by
      simpa using hkwR
    have hkwW2 : ¬(jsTrim v = "thin" ∨ jsTrim v = "medium" ∨ jsTrim v = "thick" ∨
        jsTrim v = "inherit" ∨ jsTrim v = "initial" ∨ jsTrim v = "unset") := by
      simpa using hkwW
    refine ⟨?_, ?_, ?_, ?_⟩
    · simp [validateDimension, hkwD2, hcalc, hp, hneg]
    · simp [validateSpacing, hkwS2, hp]
    · simp [validateBorderRadius, hkwR2, hp, hneg]
    · simp [validateBorderWidth, hkwW2, hp, hneg]
  · intro q hq
    have hn : jsNumNeg (some q) = true := by simp [jsNumNeg, hq]
    refine ⟨rfl, rfl, ?_, ?_⟩
    · simp only [validateBorderRadius, hn, if_true]
    · simp only [validateBorderWidth, hn, if_true]

/-- Witness for C9 at `"-5px"` and `-1`. -/
theorem C9_witness :
    (((validateDimension (.str "-5px")).isValid = true ∧
      (validateDimension (.str "-5px")).warning.isSome = true) ∧
     ((validateSpacing (.str "-5px")).isValid = true ∧
      (validateSpacing (.str "-5px")).warning = none) ∧
     ((validateBorderRadius (.str "-5px")).isValid = false ∧
      (validateBorderRadius (.str "-5px")).error.isSome = true) ∧
     ((validateBorderWidth (.str "-5px")).isValid = false ∧
      (validateBorderWidth (.str "-5px")).error.isSome = true)) ∧
    (validateDimension (.num (some (-1))) =
       { isValid := true, sanitizedValue := .str (numToString (some (-1)) ++ "px") } ∧
     validateSpacing (.num (some (-1))) =
       { isValid := true, sanitizedValue := .str (numToString (some (-1)) ++ "px") } ∧
     validateBorderRadius (.num (some (-1))) =
       { isValid := false, sanitizedValue := .num (some (-1)),
         error := some "Border radius cannot be negative" } ∧
     validateBorderWidth (.num (some (-1))) =
       { isValid := false, sanitizedValue := .num (some (-1)),
         error := some "Border width cannot be negative" }) :=
  ⟨C9_negative_length_amended.1 "-5px" ⟨some (-5), "px"⟩ (by decide) (by decide),
   C9_negative_length_amended.2 (-1) (by norm_num)⟩

/-! ## C4 -/

/-- C4 (confirmed): on the stream consisting of the SSE line
`data: {"choices":[{"delta":{"content":"Hi"}}]}` and then
`data: [DONE]`, the decoder emits exactly one `content` event carrying
`"Hi"` and no `thinking` event, and the `[DONE]` sentinel closes the
stream so that any further chunks are never read (the emitted events are
the same for every continuation of the stream). -/
theorem C4_stream_scenario :
    ∀ rest : List String,
      decodeSSE (contentHiChunk :: doneChunk :: rest) =
        [StreamEvent.content (Json.str "Hi")] := by
  intro rest
  cases rest with
  | nil => rfl
  | cons c cs => rfl

/-! ## C5 -/

theorem runReadLoop_abort (post : List ReadStep) :
    ∀ (pre : List String) (buf : SessionBuf),
      runReadLoop (pre.map ReadStep.chunk ++ ReadStep.abortRaised :: post) buf =
        .abortedDuring := by
  intro pre
  induction pre with
  | nil => intro buf; rfl
  | cons c cs ih => intro buf; exact ih (clientChunk c buf)

/-- C5 (confirmed): a session whose abort signal fires — either while
the request itself is pending or at any point of the read loop — makes
`sendMessage` return `null`, invoke neither the completion callback nor
the error callback, and read no further (the outcome is independent of
everything after the abort). -/
theorem C5_cancelled_session :
    (∀ (pre : List String) (post : List ReadStep),
        sendMessage (.ok (pre.map ReadStep.chunk ++ ReadStep.abortRaised :: post)) =
          { result := .ok none, completions := [], errors := [] }) ∧
    sendMessage .fetchAborted =
      { result := .ok none, completions := [], errors := [] } := by
  constructor
  · intro pre post
    show (match runReadLoop (pre.map ReadStep.chunk ++ ReadStep.abortRaised :: post)
        ⟨"", "", ""⟩ with
      | .abortedDuring => ({ result := .ok none, completions := [], errors := [] } :
          SessionOutcome)
      | .failedDuring msg => { result := .error msg, completions := [], errors := [msg] }
      | .finished fullContent =>
        { result := .ok (some (extractHtml fullContent)),
          completions := [(fullContent, extractHtml fullContent)],
          errors := [] }) =
      { result := .ok none, completions := [], errors := [] }
    rw [runReadLoop_abort post pre ⟨"", "", ""⟩]
  · rfl
